import Mathlib

/-!
# Marketing Data Aggregator — verification of the reconciliation core

A shallow embedding of `src/aggregator.py`.  Tables are lists of rows;
text is modelled as `List Char` (Python strings are sequences of
characters and the pipeline slices by character).  The pandas
DataFrames carry the fixed schemas of the two SQL queries, so each
table gets a Lean structure with exactly those columns.
-/

namespace Aggregator

/-- Text: Python strings as character lists. -/
abbrev Str := List Char

/-- Conversion from a Lean string literal to the text model. -/
def S (s : String) : Str := s.toList

/-- A cell of the `num_cartao_virtual` column as it arrives from the
database: either text or SQL NULL (a pandas missing value). -/
inductive PValue where
  | str (s : Str)
  | null
deriving DecidableEq

/-- Python `str(...)` / pandas `astype(str)` on such a cell: a missing
value (float NaN) prints as `"nan"`. -/
def pyStr : PValue → Str
  | .str s => s
  | .null => S "nan"

/-- A row of `df_transactions` (schema of the first SQL query, with the
`numcartao` column already under the name `num_cartao`, the rename
`merge_transactions_with_logs` performs on entry). -/
structure TransRow where
  num_cpf : Str
  num_cartao : Str
  data_transa : Str
  hora_transa : Str
  des_cnpj_reduzido : Str
  num_cartao_virtual : PValue
  vlr_total : Str
deriving DecidableEq

/-- A row of `df_auth_logs` (schema of the second SQL query).
`des_linha_recebimento` is nullable: the filter treats missing raw
lines via `na=False`. -/
structure LogRow where
  num_cartao : Str
  data : Str
  hora : Str
  cod_resposta : Str
  des_log : Str
  des_linha_recebimento : Option Str
deriving DecidableEq

/-! ## Normalizer: `process_virtual_card_numbers` -/

/-- Per-row effect of `.astype(str).str.slice(6)` applied to the
num_cartao_virtual column: convert to text and drop the first 6
characters. -/
def normRow (t : TransRow) : TransRow :=
  { t with num_cartao_virtual := PValue.str ((pyStr t.num_cartao_virtual).drop 6) }

/-- Embeds `process_virtual_card_numbers`.  The pandas column
assignment to the num_cartao_virtual column of df_transactions updates the
DataFrame object passed in, and the function returns that same object;
the embedding makes the state explicit and returns the pair
(state of the argument object after the call, returned table). -/
def process_virtual_card_numbers (df_transactions : List TransRow) :
    List TransRow × List TransRow :=
  (df_transactions.map normRow, df_transactions.map normRow)

/-! ## Filter: `filter_by_merchant`

`Series.str.contains(merchant_id, na=False)` interprets the pattern as
a regular expression (`regex=True` is the pandas default) and tests
`re.search`.  The embedding models `re.search` on the fragment of
regular expressions actually expressible here: literal characters plus
the `.` wildcard (no operators); the merchant identifiers of the
pipeline are plain digit strings inside this fragment. -/

/-- Does the pattern match at the start of the text?  A pattern `.`
character matches any text character, any other pattern character
matches only itself. -/
def matchHere : Str → Str → Bool
  | [], _ => true
  | _ :: _, [] => false
  | p :: ps, c :: cs => (p == '.' || p == c) && matchHere ps cs

/-- `re.search`: does the pattern match starting at some position? -/
def reSearch (p : Str) : Str → Bool
  | [] => matchHere p []
  | c :: cs => matchHere p (c :: cs) || reSearch p cs

/-- Literal prefix test (no wildcard): the notion, used by the spec, of matching
"at this position" for an exact substring. -/
def litHere : Str → Str → Bool
  | [], _ => true
  | _ :: _, [] => false
  | p :: ps, c :: cs => (p == c) && litHere ps cs

/-- Exact case-sensitive substring containment.  This is what the spec
calls "contains that identifier as a substring" and also the Python
operator `pat in s`, used by the column-drop step. -/
def substrB (p : Str) : Str → Bool
  | [] => litHere p []
  | c :: cs => litHere p (c :: cs) || substrB p cs

/-- The regular-expression metacharacters of the Python `re` module. -/
def regexMeta : Str := S ".^$*+?()[]\x7b\x7d|\\"

/-- The row predicate of `filter_by_merchant`: the boolean mask
`.str.contains(merchant_id, na=False)` over the des_linha_recebimento
column; a missing raw line gives `False` (`na=False`), not an error. -/
def logMatches (merchant_id : Str) (r : LogRow) : Bool :=
  match r.des_linha_recebimento with
  | none => false
  | some s => reSearch merchant_id s

/-- Embeds `filter_by_merchant`: boolean-mask row selection. -/
def filter_by_merchant (df_logs : List LogRow) (merchant_id : Str) : List LogRow :=
  df_logs.filter (logMatches merchant_id)

/-! ## Reconciler: `merge_transactions_with_logs` -/

/-- A row of the concatenation of the two merge results.  Join A
(merged on num_cartao) contributes the transaction columns plus the
non-key log columns; Join B
(left_on num_cartao_virtual, right_on num_cartao) additionally
keeps the log-side key under the suffixed name
`num_cartao_log_virtual`.  After `pd.concat` the Join A rows hold a
missing value in that extra column, modelled by `none`. -/
structure MergedRow where
  num_cpf : Str
  num_cartao : Str
  data_transa : Str
  hora_transa : Str
  des_cnpj_reduzido : Str
  num_cartao_virtual : PValue
  vlr_total : Str
  data : Str
  hora : Str
  cod_resposta : Str
  des_log : Str
  des_linha_recebimento : Option Str
  num_cartao_log_virtual : Option Str
deriving DecidableEq

/-- Row built by Join A from a matching transaction/log pair. -/
def mkCardRow (t : TransRow) (l : LogRow) : MergedRow :=
  { num_cpf := t.num_cpf, num_cartao := t.num_cartao,
    data_transa := t.data_transa, hora_transa := t.hora_transa,
    des_cnpj_reduzido := t.des_cnpj_reduzido,
    num_cartao_virtual := t.num_cartao_virtual, vlr_total := t.vlr_total,
    data := l.data, hora := l.hora, cod_resposta := l.cod_resposta,
    des_log := l.des_log, des_linha_recebimento := l.des_linha_recebimento,
    num_cartao_log_virtual := none }

/-- Row built by Join B from a matching transaction/log pair. -/
def mkVirtualRow (t : TransRow) (l : LogRow) : MergedRow :=
  { num_cpf := t.num_cpf, num_cartao := t.num_cartao,
    data_transa := t.data_transa, hora_transa := t.hora_transa,
    des_cnpj_reduzido := t.des_cnpj_reduzido,
    num_cartao_virtual := t.num_cartao_virtual, vlr_total := t.vlr_total,
    data := l.data, hora := l.hora, cod_resposta := l.cod_resposta,
    des_log := l.des_log, des_linha_recebimento := l.des_linha_recebimento,
    num_cartao_log_virtual := some l.num_cartao }

/-- Join A: inner equi-join on the physical card number.  An inner
pandas merge keeps the left rows in order, each paired with its
matching right rows in right order. -/
def joinByCard (dfT : List TransRow) (dfL : List LogRow) : List MergedRow :=
  dfT.flatMap fun t =>
    (dfL.filter fun l => decide (t.num_cartao = l.num_cartao)).map (mkCardRow t)

/-- Join B: inner equi-join of the derived virtual key against the
log card number.  A pandas equality join never matches on missing
values, and `PValue.null` is not equal to any `PValue.str`. -/
def joinByVirtual (dfT : List TransRow) (dfL : List LogRow) : List MergedRow :=
  dfT.flatMap fun t =>
    (dfL.filter fun l => decide (t.num_cartao_virtual = PValue.str l.num_cartao)).map
      (mkVirtualRow t)

/-- The deduplication key tuple of `drop_duplicates(subset=...)`:
`(num_cpf, num_cartao, num_cartao_virtual, vlr_total, data_transa, hora_transa)`. -/
abbrev MKey := Str × Str × PValue × Str × Str × Str

/-- Key tuple of a combined row. -/
def transKey (m : MergedRow) : MKey :=
  (m.num_cpf, m.num_cartao, m.num_cartao_virtual, m.vlr_total,
   m.data_transa, m.hora_transa)

/-- Worker for `drop_duplicates` with the default keep-first policy: a row survives
when its key tuple has not been seen on an earlier row. -/
def dedupGo : List MKey → List MergedRow → List MergedRow
  | _, [] => []
  | seen, r :: rs =>
      if transKey r ∈ seen then dedupGo seen rs
      else r :: dedupGo (transKey r :: seen) rs

/-- Embeds `DataFrame.drop_duplicates(subset=unique_transaction_cols)`. -/
def drop_duplicates (l : List MergedRow) : List MergedRow := dedupGo [] l

/-- Byte/character-wise lexicographic comparison of text, the order
pandas uses for string columns in `sort_values`. -/
def strLe : Str → Str → Bool
  | [], _ => true
  | _ :: _, [] => false
  | a :: as, b :: bs =>
      if a.val < b.val then true
      else if b.val < a.val then false
      else strLe as bs

/-- Lexicographic comparison of a (date, time) pair. -/
def dateTimeLe (a b : Str × Str) : Bool :=
  if a.1 = b.1 then strLe a.2 b.2 else strLe a.1 b.1

/-- `sort_values` ascending by (data_transa, hora_transa). -/
def mergedLe (a b : MergedRow) : Bool :=
  dateTimeLe (a.data_transa, a.hora_transa) (b.data_transa, b.hora_transa)

/-- `sort_values` ascending by (data, hora). -/
def logLe (a b : LogRow) : Bool :=
  dateTimeLe (a.data, a.hora) (b.data, b.hora)

/-- Insertion of one element into a sorted list. -/
def insertLe {α : Type} (le : α → α → Bool) (x : α) : List α → List α
  | [] => [x]
  | y :: ys => if le x y then x :: y :: ys else y :: insertLe le x ys

/-- Comparison sort used to embed `sort_values`. -/
def sortValues {α : Type} (le : α → α → Bool) : List α → List α
  | [] => []
  | x :: xs => insertLe le x (sortValues le xs)

/-- A row of the Reconciler output: the combined row minus the
columns whose names contain the marker `_log` — `des_log` and
`num_cartao_log_virtual` (established on the schema model below). -/
structure FinalRow where
  num_cpf : Str
  num_cartao : Str
  data_transa : Str
  hora_transa : Str
  des_cnpj_reduzido : Str
  num_cartao_virtual : PValue
  vlr_total : Str
  data : Str
  hora : Str
  cod_resposta : Str
  des_linha_recebimento : Option Str
deriving DecidableEq

/-- `df_combined.drop(columns=columns_to_drop)` at row level. -/
def stripLogCols (m : MergedRow) : FinalRow :=
  { num_cpf := m.num_cpf, num_cartao := m.num_cartao,
    data_transa := m.data_transa, hora_transa := m.hora_transa,
    des_cnpj_reduzido := m.des_cnpj_reduzido,
    num_cartao_virtual := m.num_cartao_virtual, vlr_total := m.vlr_total,
    data := m.data, hora := m.hora, cod_resposta := m.cod_resposta,
    des_linha_recebimento := m.des_linha_recebimento }

/-- Embeds `merge_transactions_with_logs`: the two joins, their
concatenation (Join A rows first), key-tuple deduplication keeping the
first occurrence, the (date, time) sort, and the column drop. -/
def merge_transactions_with_logs (df_transactions : List TransRow)
    (df_logs : List LogRow) : List FinalRow :=
  (sortValues mergedLe
    (drop_duplicates
      (joinByCard df_transactions df_logs ++ joinByVirtual df_transactions df_logs))).map
    stripLogCols

/-- Key tuple of an output row; the six key columns all survive the
column drop. -/
def finalKey (f : FinalRow) : MKey :=
  (f.num_cpf, f.num_cartao, f.num_cartao_virtual, f.vlr_total,
   f.data_transa, f.hora_transa)

/-! ## Schema model of the Reconciler's column handling

The two input schemas are fixed by the SQL queries, so the column-level
behaviour of `pd.merge` / `pd.concat` / the drop step is a computation
on lists of column names, embedded here alongside the row-level model. -/

/-- Column names of the transactions query, in `SELECT` order. -/
def trans_query_columns : List Str :=
  [S "num_cpf", S "numcartao", S "data_transa", S "hora_transa",
   S "des_cnpj_reduzido", S "num_cartao_virtual", S "vlr_total"]

/-- Column names of the auth-logs query, in `SELECT` order. -/
def log_query_columns : List Str :=
  [S "num_cartao", S "data", S "hora", S "cod_resposta", S "des_log",
   S "des_linha_recebimento"]

/-- `DataFrame.rename(columns=...)`: replace one column name in place. -/
def renameColumn (old new : Str) (cols : List Str) : List Str :=
  cols.map fun c => if c = old then new else c

/-- Transaction columns after the rename of numcartao to num_cartao. -/
def trans_columns : List Str :=
  renameColumn (S "numcartao") (S "num_cartao") trans_query_columns

/-- Append a merge suffix to the column names that collide. -/
def suffixIfIn (overlap : List Str) (suf : Str) (c : Str) : Str :=
  if c ∈ overlap then c ++ suf else c

/-- Result columns of `pd.merge(..., on=key, suffixes=(ls, rs))`: the
key appears once unsuffixed; any other colliding name gets the suffix
of its side; right columns follow the left ones. -/
def mergeOnColumns (l r : List Str) (key ls rs : Str) : List Str :=
  let overlap := (l.filter fun c => decide (c ∈ r)).filter fun c => decide (c ≠ key)
  l.map (suffixIfIn overlap ls) ++
    (r.filter fun c => decide (c ≠ key)).map (suffixIfIn overlap rs)

/-- Result columns of `pd.merge(..., left_on=lk, right_on=rk,
suffixes=(ls, rs))` with `lk ≠ rk`: both key columns are kept and every
colliding name — the right key included — gets the suffix of its side. -/
def mergeOnLRColumns (l r : List Str) (ls rs : Str) : List Str :=
  let overlap := l.filter fun c => decide (c ∈ r)
  l.map (suffixIfIn overlap ls) ++ r.map (suffixIfIn overlap rs)

/-- Columns of the Join A result. -/
def joinA_columns : List Str :=
  mergeOnColumns trans_columns log_query_columns (S "num_cartao") (S "") (S "_log")

/-- Columns of the Join B result. -/
def joinB_columns : List Str :=
  mergeOnLRColumns trans_columns log_query_columns (S "") (S "_log_virtual")

/-- Columns of `pd.concat([a, b])`: the first frame's columns in order,
then the columns only the second frame has. -/
def concatColumns (a b : List Str) : List Str :=
  a ++ b.filter fun c => decide (c ∉ a)

/-- Columns of `df_combined`. -/
def combined_columns : List Str := concatColumns joinA_columns joinB_columns

/-- The list comprehension selecting every column of df_combined whose
name contains the marker `_log`. -/
def columns_to_drop : List Str :=
  combined_columns.filter fun c => substrB (S "_log") c

/-- Columns of the Reconciler's output after the drop. -/
def final_columns : List Str :=
  combined_columns.filter fun c => !substrB (S "_log") c

/-- The log-side columns that collided with a transaction-side name in
Join A and were therefore suffixed. -/
def joinA_suffixed : List Str :=
  ((log_query_columns.filter fun c => decide (c ≠ S "num_cartao")).filter
      fun c => decide (c ∈ trans_columns)).map fun c => c ++ S "_log"

/-- The log-side columns that collided with a transaction-side name in
Join B and were therefore suffixed. -/
def joinB_suffixed : List Str :=
  (log_query_columns.filter fun c => decide (c ∈ trans_columns)).map
    fun c => c ++ S "_log_virtual"

/-- All suffixed collided log-side columns of the combined result. -/
def suffixed_log_columns : List Str := joinA_suffixed ++ joinB_suffixed

/-! ## Divergence Finder: `identify_divergences` -/

/-- Embeds `identify_divergences`: keep the log rows whose
`num_cartao` does not occur in the `num_cartao` column of the final
table, then sort by (data, hora). -/
def identify_divergences (df_logs : List LogRow) (df_final : List FinalRow) :
    List LogRow :=
  sortValues logLe
    (df_logs.filter fun l => !(df_final.any fun f => decide (f.num_cartao = l.num_cartao)))

/-! ## Failure handling: `fetch_data_from_databases` and `export_to_excel`

The external calls (query execution, spreadsheet write) are passed in
as explicit results; the embedding keeps the control flow of the
source: the first failing step prints and calls the bare `exit()`
imported from `sys`, which raises SystemExit with argument `None`. -/

/-- Process exit status of `sys.exit(arg)`: the bare call (argument
`None`) exits with status 0. -/
def sysExitCode : Option Nat → Nat
  | none => 0
  | some c => c

/-- Outcome of the data-retrieval phase: either every query succeeded
and the named tables are collected, or the process terminated with an
exit status. -/
inductive FetchOutcome (α : Type) where
  | ok (dataframes : List (Str × α))
  | exited (code : Nat)
deriving DecidableEq

/-- Embeds `fetch_data_from_databases`: one pass over the connection
list; a successful query stores its table under its name; the first
failure (connection error, query error, non-string query) prints and
terminates via the bare `exit()` — no retry, no recovered mode. -/
def fetch_data_from_databases {α : Type} :
    List (Str × Except Str α) → FetchOutcome α
  | [] => .ok []
  | (_, .error _) :: _ => .exited (sysExitCode none)
  | (name, .ok df) :: rest =>
      match fetch_data_from_databases rest with
      | .ok dfs => .ok ((name, df) :: dfs)
      | .exited c => .exited c

/-- Outcome of the report-writing phase. -/
inductive WriteOutcome where
  | completed
  | exited (code : Nat)
deriving DecidableEq

/-- Embeds `export_to_excel`: a write failure prints and terminates
via the bare `exit()`. -/
def export_to_excel (writeResult : Except Str Unit) : WriteOutcome :=
  match writeResult with
  | .ok _ => .completed
  | .error _ => .exited (sysExitCode none)

/-! ## Concrete rows used by the scenario claims and witnesses -/

/-- The single transaction of the virtual-key scenario of the spec. -/
def scT : TransRow :=
  { num_cpf := S "1", num_cartao := S "A", data_transa := S "01",
    hora_transa := S "10:00", des_cnpj_reduzido := S "M",
    num_cartao_virtual := PValue.str (S "000000X"), vlr_total := S "10" }

/-- The single auth log of the virtual-key scenario of the spec. -/
def scL : LogRow :=
  { num_cartao := S "X", data := S "01", hora := S "09:59",
    cod_resposta := S "00", des_log := S "auth",
    des_linha_recebimento := some (S "...MERCHANT...") }

/-- The filtered log table of the scenario. -/
def scFiltered : List LogRow := filter_by_merchant [scL] (S "MERCHANT")

/-- The normalized transaction table of the scenario (returned object). -/
def scTrans : List TransRow := (process_virtual_card_numbers [scT]).2

/-- The Consolidated table of the scenario. -/
def scFinal : List FinalRow := merge_transactions_with_logs scTrans scFiltered

/-- The Divergent table of the scenario. -/
def scDivergent : List LogRow := identify_divergences scFiltered scFinal

/-- A log row whose raw line is the single character X: used to
separate regular-expression search from substring containment. -/
def dotL : LogRow :=
  { num_cartao := S "Z", data := S "02", hora := S "01:00",
    cod_resposta := S "05", des_log := S "d",
    des_linha_recebimento := some (S "X") }

/-! ## Helper lemmas -/

theorem insertLe_perm {α : Type} (le : α → α → Bool) (x : α) (l : List α) :
    (insertLe le x l).Perm (x :: l) := by
  induction l with
  | nil => exact List.Perm.refl _
  | cons y ys ih =>
      by_cases h : le x y = true
      · simp [insertLe, h]
      · simp only [insertLe, h]
        rw [if_neg (by simp [h])]
        exact (ih.cons y).trans (List.Perm.swap x y ys)

theorem sortValues_perm {α : Type} (le : α → α → Bool) (l : List α) :
    (sortValues le l).Perm l := by
  induction l with
  | nil => exact List.Perm.refl _
  | cons x xs ih => exact (insertLe_perm le x (sortValues le xs)).trans (ih.cons x)

theorem mem_dedupGo {seen : List MKey} {l : List MergedRow} {r : MergedRow}
    (h : r ∈ dedupGo seen l) : r ∈ l := by
  induction l generalizing seen with
  | nil => simp [dedupGo] at h
  | cons x xs ih =>
      by_cases hk : transKey x ∈ seen
      · rw [dedupGo, if_pos hk] at h
        exact List.mem_cons_of_mem x (ih h)
      · rw [dedupGo, if_neg hk] at h
        rcases List.mem_cons.mp h with h | h
        · exact h ▸ List.mem_cons_self x xs
        · exact List.mem_cons_of_mem x (ih h)

theorem key_not_seen_of_mem_dedupGo {seen : List MKey} {l : List MergedRow}
    {r : MergedRow} (h : r ∈ dedupGo seen l) : transKey r ∉ seen := by
  induction l generalizing seen with
  | nil => simp [dedupGo] at h
  | cons x xs ih =>
      by_cases hk : transKey x ∈ seen
      · rw [dedupGo, if_pos hk] at h
        exact ih h
      · rw [dedupGo, if_neg hk] at h
        rcases List.mem_cons.mp h with h | h
        · exact h ▸ hk
        · intro hmem
          exact ih h (List.mem_cons_of_mem _ hmem)

theorem dedupGo_pairwise (seen : List MKey) (l : List MergedRow) :
    (dedupGo seen l).Pairwise fun a b => transKey a ≠ transKey b := by
  induction l generalizing seen with
  | nil => exact List.Pairwise.nil
  | cons x xs ih =>
      by_cases hk : transKey x ∈ seen
      · rw [dedupGo, if_pos hk]
        exact ih seen
      · rw [dedupGo, if_neg hk]
        refine List.Pairwise.cons (fun b hb => ?_) (ih _)
        have := key_not_seen_of_mem_dedupGo hb
        intro hxb
        exact this (hxb ▸ List.mem_cons_self _ _)

theorem find?_dedupGo {seen : List MKey} {l : List MergedRow} {r : MergedRow}
    (h : r ∈ dedupGo seen l) :
    l.find? (fun x => decide (transKey x = transKey r)) = some r := by
  induction l generalizing seen with
  | nil => simp [dedupGo] at h
  | cons x xs ih =>
      by_cases hk : transKey x ∈ seen
      · rw [dedupGo, if_pos hk] at h
        have hne : transKey x ≠ transKey r := fun he =>
          key_not_seen_of_mem_dedupGo h (he ▸ hk)
        rw [List.find?_cons_of_neg _ (by simpa using hne)]
        exact ih h
      · rw [dedupGo, if_neg hk] at h
        rcases List.mem_cons.mp h with h | h
        · subst h
          exact List.find?_cons_of_pos _ (by simp)
        · have hnr := key_not_seen_of_mem_dedupGo h
          have hne : transKey x ≠ transKey r := fun he =>
            hnr (he ▸ List.mem_cons_self _ _)
          rw [List.find?_cons_of_neg _ (by simpa using hne)]
          exact ih h

theorem find?_append_mem_left {α : Type} {p : α → Bool} {A B : List α} {m : α}
    (h : (A ++ B).find? p = some m) (ha : ∃ a ∈ A, p a = true) : m ∈ A := by
  induction A with
  | nil => simp at ha
  | cons a A' ih =>
      by_cases hpa : p a = true
      · rw [List.cons_append, List.find?_cons_of_pos _ hpa] at h
        exact (Option.some_inj.mp h) ▸ List.mem_cons_self _ _
      · rw [List.cons_append, List.find?_cons_of_neg _ (by simpa using hpa)] at h
        rcases ha with ⟨a', ha', hpa'⟩
        rcases List.mem_cons.mp ha' with rfl | ha'
        · exact absurd hpa' hpa
        · exact List.mem_cons_of_mem _ (ih h ⟨a', ha', hpa'⟩)

theorem matchHere_of_dot_free {p : Str} (hp : ('.' : Char) ∉ p) (s : Str) :
    matchHere p s = litHere p s := by
  induction p generalizing s with
  | nil => cases s <;> rfl
  | cons a ps ih =>
      cases s with
      | nil => rfl
      | cons c cs =>
          have ha : (a == '.') = false := by
            simp only [beq_eq_false_iff_ne, ne_eq]
            intro h
            exact hp (h ▸ List.mem_cons_self _ _)
          have hps : ('.' : Char) ∉ ps := fun h => hp (List.mem_cons_of_mem _ h)
          simp [matchHere, litHere, ha, ih hps]

theorem reSearch_of_dot_free {p : Str} (hp : ('.' : Char) ∉ p) (s : Str) :
    reSearch p s = substrB p s := by
  induction s with
  | nil => simpa [reSearch, substrB] using matchHere_of_dot_free hp []
  | cons c cs ih =>
      simp [reSearch, substrB, matchHere_of_dot_free hp, ih]

theorem dot_free_of_meta_free {p : Str} (h : ∀ c ∈ p, c ∉ regexMeta) :
    ('.' : Char) ∉ p := fun hc => h '.' hc (by decide)

theorem flatMap_nil_fun {α β : Type} (l : List α) :
    (l.flatMap fun _ => ([] : List β)) = [] := by
  induction l with
  | nil => rfl
  | cons x xs ih => simp [List.flatMap_cons, ih]

/-! ## Claim theorems -/

/-- C1, counterexample: in the single-transaction virtual-key scenario
the Consolidated table does have exactly 1 row, but the Divergent
table is not empty — the log was matched through the virtual key, and
the Divergence Finder compares its card number X against the physical
num_cartao column of the Consolidated table, which holds A. -/
theorem scenario_divergent_not_empty :
    scFinal.length = 1 ∧ scDivergent ≠ [] := by decide

/-- C1, amended: in the scenario, filtering by MERCHANT keeps the log,
Join B matches it through the virtual key X, the Consolidated table
has exactly 1 row — and the Divergent table contains exactly that log
row, because divergence is computed on the physical card number
column, where the virtual-key match is invisible. -/
theorem scenario_consolidated_one_divergent_one :
    scFiltered = [scL] ∧ scFinal.length = 1 ∧ scDivergent = [scL] := by decide

/-- C3, counterexample: the column des_log is removed by the drop step
although it is not a suffixed collided column — its native name merely
contains the marker `_log`. -/
theorem drop_includes_unsuffixed_des_log :
    S "des_log" ∈ columns_to_drop ∧ S "des_log" ∉ suffixed_log_columns := by
  decide

/-- C3, amended: the Reconciler drops every column whose name contains
the substring `_log`: that is the suffixed collided column
num_cartao_log_virtual together with the unsuffixed log-side column
des_log; the output retains all transaction-side columns plus the
remaining unsuffixed log columns. -/
theorem columns_dropped_exactly_log_marked :
    columns_to_drop = [S "des_log", S "num_cartao_log_virtual"] ∧
    suffixed_log_columns = [S "num_cartao_log_virtual"] ∧
    final_columns =
      trans_columns ++ [S "data", S "hora", S "cod_resposta", S "des_linha_recebimento"] := by
  decide

/-- C4, counterexample: the Normalizer does mutate its input — after
the call the state of the argument table differs from the state it was
passed in (the virtual_card_number field was rewritten in place). -/
theorem normalizer_input_state_changes :
    (process_virtual_card_numbers [scT]).1 ≠ [scT] := by decide

/-- C4, amended: the Normalizer mutates its input table in place and
returns that same table: the post-call state of the argument equals
the returned table, the virtual_card_number field is rewritten to its
text form with the first 6 characters removed, and every other field
of every row is unchanged. -/
theorem normalizer_mutates_in_place (df : List TransRow) :
    (process_virtual_card_numbers df).1 = (process_virtual_card_numbers df).2 ∧
    List.Forall₂ (fun t r =>
        r.num_cpf = t.num_cpf ∧ r.num_cartao = t.num_cartao ∧
        r.data_transa = t.data_transa ∧ r.hora_transa = t.hora_transa ∧
        r.des_cnpj_reduzido = t.des_cnpj_reduzido ∧ r.vlr_total = t.vlr_total ∧
        r.num_cartao_virtual = PValue.str ((pyStr t.num_cartao_virtual).drop 6))
      df (process_virtual_card_numbers df).1 := by
  refine ⟨rfl, ?_⟩
  induction df with
  | nil => exact List.Forall₂.nil
  | cons t ts ih =>
      exact List.Forall₂.cons ⟨rfl, rfl, rfl, rfl, rfl, rfl, rfl⟩ ih

/-- C5, counterexample: with the merchant identifier consisting of a
single dot, the filter retains a row whose raw line is the single
character X, which does not contain the identifier as a substring —
pandas str.contains interprets the identifier as a regular expression,
not as a literal substring. -/
theorem filter_regex_not_substring :
    filter_by_merchant [dotL] (S ".") = [dotL] ∧
    dotL.des_linha_recebimento = some (S "X") ∧
    substrB (S ".") (S "X") = false := by decide

/-- C5, amended: the filter interprets the merchant identifier as a
regular expression; whenever the identifier contains no
regular-expression metacharacter, its output is exactly the rows whose
raw line is present and contains the identifier as a case-sensitive
exact substring, rows with a missing raw line being excluded without
error, and the output is a subsequence of the input. -/
theorem filter_meta_free_substring (logs : List LogRow) (pat : Str)
    (h : ∀ c ∈ pat, c ∉ regexMeta) :
    filter_by_merchant logs pat =
      logs.filter (fun r =>
        match r.des_linha_recebimento with
        | none => false
        | some s => substrB pat s) ∧
    (filter_by_merchant logs pat).Sublist logs := by
  constructor
  · refine List.filter_congr fun r _ => ?_
    unfold logMatches
    cases r.des_linha_recebimento with
    | none => rfl
    | some s => exact reSearch_of_dot_free (dot_free_of_meta_free h) s
  · exact List.filter_sublist logs

/-- C5, witness: the amended filter theorem applied to the scenario
log together with the X-row, for the metacharacter-free identifier
MERCHANT. -/
theorem filter_meta_free_substring_witness :
    filter_by_merchant [scL, dotL] (S "MERCHANT") =
      [scL, dotL].filter (fun r =>
        match r.des_linha_recebimento with
        | none => false
        | some s => substrB (S "MERCHANT") s) ∧
    (filter_by_merchant [scL, dotL] (S "MERCHANT")).Sublist [scL, dotL] :=
  filter_meta_free_substring [scL, dotL] (S "MERCHANT") (by decide)

/-- C6, confirmed: for every Transaction row, the derived virtual key
is the text form of the original virtual_card_number with its first 6
characters removed, and when that text form is shorter than 6
characters the derived key is the empty string — total, no error. -/
theorem normalizer_vkey_drop6 (df : List TransRow) :
    List.Forall₂ (fun t r =>
        r.num_cartao_virtual = PValue.str ((pyStr t.num_cartao_virtual).drop 6) ∧
        ((pyStr t.num_cartao_virtual).length < 6 →
          r.num_cartao_virtual = PValue.str []))
      df (process_virtual_card_numbers df).2 := by
  induction df with
  | nil => exact List.Forall₂.nil
  | cons t ts ih =>
      refine List.Forall₂.cons ⟨rfl, fun hlen => ?_⟩ ih
      exact congrArg PValue.str (List.drop_eq_nil_of_le (Nat.le_of_lt hlen))

/-- C6, witness: the normalizer theorem evaluated on the scenario
transaction, whose virtual card number 000000X is 7 characters long. -/
theorem normalizer_vkey_drop6_witness :
    List.Forall₂ (fun t r =>
        r.num_cartao_virtual = PValue.str ((pyStr t.num_cartao_virtual).drop 6) ∧
        ((pyStr t.num_cartao_virtual).length < 6 →
          r.num_cartao_virtual = PValue.str []))
      [scT] (process_virtual_card_numbers [scT]).2 :=
  normalizer_vkey_drop6 [scT]

/-- C7, confirmed: with an empty Transactions table the Consolidated
output is empty and the Divergence Finder returns the full filtered
AuthLogs table (as its date-time-sorted copy, a permutation of the
input); and with either Reconciler input empty the Reconciler result
is empty — no error in either case. -/
theorem empty_input_tables (dfT : List TransRow) (dfL : List LogRow) :
    (dfT = [] →
      merge_transactions_with_logs dfT dfL = [] ∧
      identify_divergences dfL (merge_transactions_with_logs dfT dfL) =
        sortValues logLe dfL ∧
      (identify_divergences dfL (merge_transactions_with_logs dfT dfL)).Perm dfL) ∧
    (dfL = [] → merge_transactions_with_logs dfT dfL = []) := by
  constructor
  · rintro rfl
    have hm : merge_transactions_with_logs [] dfL = [] := rfl
    have hd : identify_divergences dfL (merge_transactions_with_logs [] dfL) =
        sortValues logLe dfL := by
      rw [hm]
      exact congrArg (sortValues logLe) (List.filter_true dfL)
    exact ⟨hm, hd, hd ▸ sortValues_perm logLe dfL⟩
  · rintro rfl
    have h1 : joinByCard dfT [] = [] := flatMap_nil_fun dfT
    have h2 : joinByVirtual dfT [] = [] := flatMap_nil_fun dfT
    unfold merge_transactions_with_logs
    rw [h1, h2]
    rfl

/-- C7, witness: the empty-input theorem applied to the empty
Transactions table and the one-row log table of the scenario. -/
theorem empty_input_tables_witness :
    merge_transactions_with_logs [] [scL] = [] ∧
    identify_divergences [scL] (merge_transactions_with_logs [] [scL]) =
      sortValues logLe [scL] ∧
    (identify_divergences [scL] (merge_transactions_with_logs [] [scL])).Perm [scL] :=
  (empty_input_tables [] [scL]).1 rfl

/-- C9, confirmed: a Transaction row whose virtual card number has a
text form of at most 6 characters — a missing value, whose text form
is nan, included — is normalized to the empty virtual key, and Join B
then matches it against every filtered log row whose card number is
the empty string. -/
theorem short_vkey_matches_empty_card (dfT : List TransRow) (dfL : List LogRow)
    (t : TransRow) (l : LogRow) (ht : t ∈ dfT)
    (hlen : (pyStr t.num_cartao_virtual).length ≤ 6)
    (hl : l ∈ dfL) (hcard : l.num_cartao = []) :
    pyStr PValue.null = S "nan" ∧
    (normRow t).num_cartao_virtual = PValue.str [] ∧
    normRow t ∈ (process_virtual_card_numbers dfT).2 ∧
    mkVirtualRow (normRow t) l ∈
      joinByVirtual (process_virtual_card_numbers dfT).2 dfL := by
  have hkey : (normRow t).num_cartao_virtual = PValue.str [] :=
    congrArg PValue.str (List.drop_eq_nil_of_le hlen)
  refine ⟨rfl, hkey, List.mem_map_of_mem normRow ht, ?_⟩
  refine List.mem_flatMap.mpr ⟨normRow t, List.mem_map_of_mem normRow ht, ?_⟩
  refine List.mem_map_of_mem (mkVirtualRow (normRow t)) ?_
  refine List.mem_filter.mpr ⟨hl, ?_⟩
  rw [hkey, hcard]
  exact decide_eq_true rfl

/-- C9, witness: a transaction with a missing virtual card number and
a log row with an empty card number, at which the short-key theorem is
evaluated. -/
theorem short_vkey_matches_empty_card_witness :
    pyStr PValue.null = S "nan" ∧
    (normRow { scT with num_cartao_virtual := PValue.null }).num_cartao_virtual =
      PValue.str [] ∧
    normRow { scT with num_cartao_virtual := PValue.null } ∈
      (process_virtual_card_numbers [{ scT with num_cartao_virtual := PValue.null }]).2 ∧
    mkVirtualRow (normRow { scT with num_cartao_virtual := PValue.null })
        { scL with num_cartao := [] } ∈
      joinByVirtual
        (process_virtual_card_numbers [{ scT with num_cartao_virtual := PValue.null }]).2
        [{ scL with num_cartao := [] }] :=
  short_vkey_matches_empty_card
    [{ scT with num_cartao_virtual := PValue.null }] [{ scL with num_cartao := [] }]
    { scT with num_cartao_virtual := PValue.null } { scL with num_cartao := [] }
    (by decide) (by decide) (by decide) (by decide)

/-- C10, confirmed: the filter returns a subsequence of its input —
relative order preserved and every retained row unchanged — and a row
is retained exactly when it belongs to the input and its raw line
matches the identifier. -/
theorem filter_sublist_unchanged (logs : List LogRow) (pat : Str) :
    (filter_by_merchant logs pat).Sublist logs ∧
    ∀ r, r ∈ filter_by_merchant logs pat ↔ r ∈ logs ∧ logMatches pat r = true :=
  ⟨List.filter_sublist logs, fun _ => List.mem_filter⟩

/-- C10, witness: the subsequence theorem evaluated on the two-row log
table with the identifier MERCHANT. -/
theorem filter_sublist_unchanged_witness :
    (filter_by_merchant [scL, dotL] (S "MERCHANT")).Sublist [scL, dotL] ∧
    ∀ r, r ∈ filter_by_merchant [scL, dotL] (S "MERCHANT") ↔
      r ∈ [scL, dotL] ∧ logMatches (S "MERCHANT") r = true :=
  filter_sublist_unchanged [scL, dotL] (S "MERCHANT")

/-- C8, counterexample: a connectivity failure during data retrieval
and a report-write failure both terminate the run through the bare
exit call, whose process exit status is 0 — there is no nonzero exit
status, contradicting the non-zero-equivalent outcome the claim
asserts. -/
theorem failure_exit_status_not_nonzero :
    fetch_data_from_databases
        ([(S "df_transactions", Except.error (S "connection refused"))] :
          List (Str × Except Str (List TransRow))) =
      FetchOutcome.exited 0 ∧
    export_to_excel (Except.error (S "disk full")) = WriteOutcome.exited 0 ∧
    ¬ ∃ c, c ≠ 0 ∧
      fetch_data_from_databases
          ([(S "df_transactions", Except.error (S "connection refused"))] :
            List (Str × Except Str (List TransRow))) =
        FetchOutcome.exited c := by
  refine ⟨rfl, rfl, ?_⟩
  rintro ⟨c, hc, h⟩
  rw [show fetch_data_from_databases
        ([(S "df_transactions", Except.error (S "connection refused"))] :
          List (Str × Except Str (List TransRow))) =
      FetchOutcome.exited 0 from rfl] at h
  exact hc (FetchOutcome.exited.inj h).symm

/-- C8, amended: no failure is retried and the first failure
terminates the run immediately — but through the bare exit call, so
the process exit status is 0, a success-equivalent outcome, not
non-zero; an all-successful retrieval collects every table. -/
theorem failure_terminates_with_status_zero {α : Type} (pre : List (Str × α))
    (name msg : Str) (rest : List (Str × Except Str α)) :
    fetch_data_from_databases
        (pre.map (fun p => (p.1, Except.ok p.2)) ++ (name, Except.error msg) :: rest) =
      FetchOutcome.exited 0 ∧
    export_to_excel (Except.error msg) = WriteOutcome.exited 0 ∧
    fetch_data_from_databases (pre.map fun p => (p.1, (Except.ok p.2 : Except Str α))) =
      FetchOutcome.ok pre := by
  refine ⟨?_, rfl, ?_⟩
  · induction pre with
    | nil => rfl
    | cons p ps ih => simp [fetch_data_from_databases, ih]
  · induction pre with
    | nil => rfl
    | cons p ps ih => simp [fetch_data_from_databases, ih]

/-- C2, confirmed: for every pair of input tables, no two Reconciler
output rows share the key tuple (cpf, card number, virtual card
number, amount, date, time); each output row is the projection of the
first row bearing its key tuple in the concatenation of the Join A and
Join B results, so whenever some Join A row carries the key tuple, the
kept row comes from Join A. -/
theorem reconciler_dedup_first_occurrence (dfT : List TransRow) (dfL : List LogRow) :
    (merge_transactions_with_logs dfT dfL).Pairwise
      (fun a b => finalKey a ≠ finalKey b) ∧
    ∀ r ∈ merge_transactions_with_logs dfT dfL,
      ∃ m, (joinByCard dfT dfL ++ joinByVirtual dfT dfL).find?
            (fun x => decide (transKey x = finalKey r)) = some m ∧
        stripLogCols m = r ∧
        ((∃ a ∈ joinByCard dfT dfL, transKey a = finalKey r) →
          m ∈ joinByCard dfT dfL) := by
  constructor
  · have hperm :
        (sortValues mergedLe
          (drop_duplicates (joinByCard dfT dfL ++ joinByVirtual dfT dfL))).Perm
          (drop_duplicates (joinByCard dfT dfL ++ joinByVirtual dfT dfL)) :=
      sortValues_perm _ _
    have hpw :
        (sortValues mergedLe
          (drop_duplicates (joinByCard dfT dfL ++ joinByVirtual dfT dfL))).Pairwise
          (fun a b => transKey a ≠ transKey b) :=
      (hperm.pairwise_iff fun h => Ne.symm h).mpr (dedupGo_pairwise [] _)
    exact List.pairwise_map.mpr hpw
  · intro r hr
    obtain ⟨m, hm, hms⟩ := List.mem_map.mp hr
    subst hms
    have hmD : m ∈ drop_duplicates (joinByCard dfT dfL ++ joinByVirtual dfT dfL) :=
      (sortValues_perm mergedLe _).mem_iff.mp hm
    have hfind :
        (joinByCard dfT dfL ++ joinByVirtual dfT dfL).find?
          (fun x => decide (transKey x = transKey m)) = some m :=
      find?_dedupGo hmD
    refine ⟨m, hfind, rfl, ?_⟩
    rintro ⟨a, ha, hak⟩
    exact find?_append_mem_left hfind ⟨a, ha, decide_eq_true hak⟩

/-- C2, witness: the deduplication theorem evaluated on the scenario
tables, at the single output row of the Consolidated table. -/
theorem reconciler_dedup_first_occurrence_witness :
    ∃ m, (joinByCard scTrans scFiltered ++ joinByVirtual scTrans scFiltered).find?
          (fun x => decide
            (transKey x = finalKey (stripLogCols (mkVirtualRow (normRow scT) scL)))) =
        some m ∧
      stripLogCols m = stripLogCols (mkVirtualRow (normRow scT) scL) ∧
      ((∃ a ∈ joinByCard scTrans scFiltered,
          transKey a = finalKey (stripLogCols (mkVirtualRow (normRow scT) scL))) →
        m ∈ joinByCard scTrans scFiltered) :=
  (reconciler_dedup_first_occurrence scTrans scFiltered).2
    (stripLogCols (mkVirtualRow (normRow scT) scL)) (by decide)

end Aggregator
